import Mathlib

/-! uwebpack: a verification development.

A shallow embedding of the command-line dispatcher (`bin/uwebpack.js`), the path
helpers (`config/paths.js`), the browser opener (`utils/openBrowser.js`), the
port / proxy helpers (`utils/webpackDevServerUtils.js`) and the html interpolation
hook (`utils/interpolateHtmlPlugin.js`), with the properties proved about them.

Conventions of the embedding

* a JavaScript value that is a string or `undefined`/`null` is an `Option String`;
* effects (console output, spawned processes, prompts) are recorded in the value
  a function returns, in the order in which the code performs them;
* what the operating system or a third-party package decides (the result of a
  child process, the module resolver, the port detector, the answer typed at a
  prompt) is an explicit argument.
-/

namespace Uwebpack

/-! ## JavaScript helpers -/

/-- Truthiness of a value that is a string or `undefined`/`null`:
only a non-empty string is truthy. -/
def truthyStr : Option String → Bool
  | some s => s != ""
  | none => false

/-- String conversion of a value that is a string or `undefined`, as done by `+`. -/
def toStr : Option String → String
  | some s => s
  | none => "undefined"

/-- Relative index of `Array.prototype.slice`: a negative index counts from the end,
and the result is clamped to `0 .. len`. -/
def relIndex (len : Nat) (k : Int) : Nat :=
  if k < 0 then (len + k).toNat else min k.toNat len

/-- `xs.slice(start, end)`. -/
def slice {α : Type} (xs : List α) (start stop : Int) : List α :=
  let lo := relIndex xs.length start
  let hi := relIndex xs.length stop
  (xs.drop lo).take (hi - lo)

/-- `xs.slice(start)`. -/
def sliceFrom {α : Type} (xs : List α) (start : Int) : List α :=
  xs.drop (relIndex xs.length start)

/-- `xs[k]` for an integer `k`: `undefined` outside the array. -/
def at? {α : Type} (xs : List α) (k : Int) : Option α :=
  if k < 0 then none else xs.get? k.toNat

/-- Worker of `findIndex`: the index, counted from `k`, of the first element satisfying `p`,
or `-1`. -/
def findIndexFrom {α : Type} (p : α → Bool) : List α → Nat → Int
  | [], _ => -1
  | x :: xs, k => if p x then (k : Int) else findIndexFrom p xs (k + 1)

/-- `xs.findIndex(p)`. -/
def findIndex {α : Type} (p : α → Bool) (xs : List α) : Int :=
  findIndexFrom p xs 0

/-- `s.endsWith(t)`. -/
def endsWith (s t : String) : Bool :=
  t.data.isSuffixOf s.data

/-- `s.startsWith(t)`. -/
def startsWith (s t : String) : Bool :=
  t.data.isPrefixOf s.data

/-- `s.substr(start, len)`. -/
def substr (s : String) (start len : Nat) : String :=
  String.mk ((s.data.drop start).take len)

/-- `s.toLowerCase()`. The letters `A`–`Z` are mapped to `a`–`z`; the tests made on the
result in this program (`=== 'none'`, `endsWith('.js')`) involve ASCII letters only, and
no character outside `A`–`Z` has one of `n o e j s` as its lower case. -/
def toLowerCase (s : String) : String :=
  String.mk (s.data.map Char.toLower)

/-- The value of `a || b` for two values that are strings or `undefined`. -/
def orElse (a b : Option String) : Option String :=
  if truthyStr a then a else b

/-- The colours and styles of the `chalk` package used by the program. -/
inductive Color where
  | red
  | cyan
  | yellow
  | bold
deriving DecidableEq, Repr

/-! ## `bin/uwebpack.js` -/

namespace Cli

/-- What `spawn.sync` returns, as far as the dispatcher reads it: the name of the signal
that terminated the child (or `null`) and the exit status (or `null`). -/
structure SpawnResult where
  signal : Option String
  status : Option Int
deriving DecidableEq, Repr

/-- One call of `spawn.sync(command, args, { stdio })`. -/
structure SpawnCall where
  command : String
  args : List String
  stdio : String
deriving DecidableEq, Repr

/-- One call of `console.log`. -/
inductive Log where
  | array (xs : List String)
  | number (n : Int)
  | text (s : String)
deriving DecidableEq, Repr

/-- How the dispatcher ends: it runs off the end of the file, calls `process.exit` with
the given argument (`none` is `null`), or an exception escapes. -/
inductive Ending where
  | fellThrough
  | exited (code : Option Int)
  | threw (what : String)
deriving DecidableEq, Repr

/-- The observable behaviour of one run of the dispatcher. -/
structure Run where
  logs : List Log
  spawned : List SpawnCall
  ending : Ending
deriving DecidableEq, Repr

/-- The predicate given to `findIndex`: `x === 'build' || x === 'start'`. -/
def isScript (x : String) : Bool :=
  x == "build" || x == "start"

/-- The constant `scriptIndex`. -/
def scriptIndex (args : List String) : Int :=
  findIndex isScript args

/-- The constant `script`. -/
def script (args : List String) : Option String :=
  if scriptIndex args = -1 then at? args 0 else at? args (scriptIndex args)

/-- The constant `nodeArgs`. -/
def nodeArgs (args : List String) : List String :=
  if scriptIndex args > 0 then slice args 0 (scriptIndex args) else []

/-- The message printed when the child was terminated by `SIGKILL`. -/
def sigkillMessage : String :=
  "The build failed because the process exited too early. " ++
  "This probably means the system ran out of memory or someone called " ++
  "`kill -9` on the process."

/-- The message printed when the child was terminated by `SIGTERM`. -/
def sigtermMessage : String :=
  "The build failed because the process exited too early. " ++
  "Someone might have called `kill` or `killall`, or the system could " ++
  "be shutting down."

/-- The three `console.log` calls made before the `switch`. -/
def preamble (args : List String) : List Log :=
  [Log.array args, Log.number (scriptIndex args), Log.array (sliceFrom args (scriptIndex args + 1))]

/-- The body of the `'build'` / `'start'` case, after `spawn.sync` returned `result`. -/
def afterSpawn (result : SpawnResult) : List Log × Ending :=
  if truthyStr result.signal then
    let logs :=
      if result.signal = some "SIGKILL" then [Log.text sigkillMessage]
      else if result.signal = some "SIGTERM" then [Log.text sigtermMessage]
      else []
    (logs, Ending.exited (some 1))
  else
    ([], Ending.exited result.status)

/-- The dispatcher from line 6 on, for `args = process.argv.slice(2)`.
`resolve` is `require.resolve` (`none` when the module cannot be found, in which case
the exception escapes) and `spawnSync` is the result of the child process. -/
def run (resolve : String → Option String) (spawnSync : SpawnCall → SpawnResult)
    (args : List String) : Run :=
  let pre := preamble args
  match script args with
  | some s =>
    if s = "build" ∨ s = "start" then
      match resolve ("../scripts/" ++ s) with
      | none => ⟨pre, [], Ending.threw ("Cannot find module '../scripts/" ++ s ++ "'")⟩
      | some path =>
        let call : SpawnCall :=
          ⟨"node", (nodeArgs args ++ [path]) ++ sliceFrom args (scriptIndex args + 1), "inherit"⟩
        let out := afterSpawn (spawnSync call)
        ⟨pre ++ out.1, [call], out.2⟩
    else
      ⟨pre ++ [Log.text ("Unknown script \"" ++ toStr (some s) ++ "\".")], [], Ending.fellThrough⟩
  | none =>
    ⟨pre ++ [Log.text ("Unknown script \"" ++ toStr none ++ "\".")], [], Ending.fellThrough⟩

/-- The whole program, from `process.argv`. -/
def main (resolve : String → Option String) (spawnSync : SpawnCall → SpawnResult)
    (argv : List String) : Run :=
  run resolve spawnSync (sliceFrom argv 2)

end Cli

/-! ## `config/paths.js` -/

namespace Paths

/-- What `paths.js` reads from its surroundings: the environment variable `PUBLIC_URL`
(`undefined` when unset), the `homepage` field of the package description at a given
path (`undefined` when absent), and `url.parse(u).pathname` (`null` when the URL has no
path). -/
structure Env where
  envPublicUrl : Option String
  homepage : String → Option String
  pathname : String → Option String

/-- The function `ensureSlash`. -/
def ensureSlash (inputPath : String) (needsSlash : Bool) : String :=
  let hasSlash := endsWith inputPath "/"
  if hasSlash && !needsSlash then
    substr inputPath 0 (inputPath.length - 1)
  else if !hasSlash && needsSlash then
    inputPath ++ "/"
  else
    inputPath

/-- The function `getPublicUrl`. -/
def getPublicUrl (env : Env) (appPackageJson : String) : Option String :=
  orElse env.envPublicUrl (env.homepage appPackageJson)

/-- The function `getServedPath`. The result is `none` when `ensureSlash` is handed
`null` (the path name of a URL without a path), where `inputPath.endsWith` raises a
`TypeError`. -/
def getServedPath (env : Env) (appPackageJson : String) : Option String :=
  let publicUrl := getPublicUrl env appPackageJson
  let servedUrl : Option String :=
    if truthyStr env.envPublicUrl then env.envPublicUrl
    else match publicUrl with
      | some u => if truthyStr (some u) then env.pathname u else some "/"
      | none => some "/"
  match servedUrl with
  | some u => some (ensureSlash u true)
  | none => none

end Paths

/-! ## `utils/openBrowser.js` -/

namespace Browser

/-- The constant `OSX_CHROME`. -/
def OSX_CHROME : String := "google chrome"

/-- The constant `Actions.NONE`. -/
def Actions.NONE : Nat := 0

/-- The constant `Actions.BROWSER`. -/
def Actions.BROWSER : Nat := 1

/-- The constant `Actions.SCRIPT`. -/
def Actions.SCRIPT : Nat := 2

/-- What `openBrowser.js` reads from its surroundings: the environment variable `BROWSER`,
`process.platform`, `process.argv.slice(2)`, `encodeURI`, whether a shell command run by
`execSync` succeeds, and whether `opn` returns (rather than throwing). -/
structure Env where
  browser : Option String
  platform : String
  extraArgs : List String
  encodeURI : String → String
  execOk : String → Bool
  opnOk : Bool

/-- The effects of `openBrowser`, in the order in which they happen. -/
inductive Effect where
  | spawnNode (args : List String) (stdio : String)
  | execSync (command : String)
  | opn (url : String) (app : Option String)
deriving DecidableEq, Repr

/-- The function `getBrowserEnv`: the pair `{ action, value }`. -/
def getBrowserEnv (env : Env) : Nat × Option String :=
  let value := env.browser
  let action :=
    match value with
    | none => Actions.BROWSER
    | some v =>
      if !truthyStr (some v) then Actions.BROWSER
      else if endsWith (toLowerCase v) ".js" then Actions.SCRIPT
      else if toLowerCase v = "none" then Actions.NONE
      else Actions.BROWSER
  (action, value)

/-- The function `executeNodeScript`: its result and effects. The `close` handler it
installs runs later and only prints. -/
def executeNodeScript (env : Env) (scriptPath : Option String) (url : String) :
    Bool × List Effect :=
  (true, [Effect.spawnNode ((toStr scriptPath :: env.extraArgs) ++ [url]) "inherit"])

/-- The `close` handler installed by `executeNodeScript`: the lines it prints. -/
def onClose (paint : Color → String → String) (scriptPath : String) (code : Int) :
    List String :=
  if code ≠ 0 then
    ["",
     paint Color.red "The script specified as BROWSER environment variable failed.",
     paint Color.cyan scriptPath ++ " exited with code " ++ toString code ++ ".",
     ""]
  else []

/-- The function `startBrowserProcess`: its result and effects. -/
def startBrowserProcess (env : Env) (browser : Option String) (url : String) :
    Bool × List Effect :=
  let shouldTryOpenChromeWithAppleScript :=
    env.platform == "darwin" && (browser.isNone || browser == some OSX_CHROME)
  let ps := "ps cax | grep \"Google Chrome\""
  let osa := "osascript openChrome.applescript \"" ++ env.encodeURI url ++ "\""
  let fallback (before : List Effect) : Bool × List Effect :=
    if env.opnOk then (true, before ++ [Effect.opn url browser])
    else (false, before ++ [Effect.opn url browser])
  if shouldTryOpenChromeWithAppleScript then
    if env.execOk ps then
      if env.execOk osa then
        (true, [Effect.execSync ps, Effect.execSync osa])
      else fallback [Effect.execSync ps, Effect.execSync osa]
    else fallback [Effect.execSync ps]
  else fallback []

/-- The function `openBrowser`: `Except.error` is the message of the exception thrown by
the `default` case of its `switch`. -/
def openBrowser (env : Env) (url : String) : Except String (Bool × List Effect) :=
  let (action, value) := getBrowserEnv env
  if action = Actions.NONE then
    Except.ok (false, [])
  else if action = Actions.SCRIPT then
    Except.ok (executeNodeScript env value url)
  else if action = Actions.BROWSER then
    Except.ok (startBrowserProcess env value url)
  else
    Except.error "Not implemented."

end Browser

/-! ## `utils/webpackDevServerUtils.js` -/

namespace DevServer

/-- A value read from `package.json`, or `undefined` for a missing one. Numbers are kept
as integers: only their being zero or not is ever looked at. The properties of an object
are listed in enumeration order, with distinct keys. -/
inductive Value where
  | undefined
  | null
  | bool (b : Bool)
  | num (n : Int)
  | str (s : String)
  | arr (items : List Value)
  | obj (props : List (String × Value))

/-- Truthiness of a value. -/
def Value.truthy : Value → Bool
  | Value.undefined => false
  | Value.null => false
  | Value.bool b => b
  | Value.num n => n != 0
  | Value.str s => s != ""
  | Value.arr _ => true
  | Value.obj _ => true

/-- The operator `typeof`. -/
def Value.typeof : Value → String
  | Value.undefined => "undefined"
  | Value.null => "object"
  | Value.bool _ => "boolean"
  | Value.num _ => "number"
  | Value.str _ => "string"
  | Value.arr _ => "object"
  | Value.obj _ => "object"

/-- The own enumerable properties of a value, in enumeration order: the properties of an
object, the indices of an array, the indices of a string. -/
def Value.ownProps : Value → List (String × Value)
  | Value.obj props => props
  | Value.arr items => items.enum.map (fun iv => (toString iv.1, iv.2))
  | Value.str s => s.data.enum.map (fun ic => (toString ic.1, Value.str (String.singleton ic.2)))
  | _ => []

/-- `Object.keys(v)`. -/
def Value.keys (v : Value) : List String :=
  v.ownProps.map Prod.fst

/-- `v[name]`, for the names this program uses (a key of `v`, or `target`). -/
def Value.getProp (v : Value) (name : String) : Value :=
  (v.ownProps.lookup name).getD Value.undefined

/-- How `prepareProxy` ends when it does not return: `process.exit(code)` after printing
`logs`, or a `TypeError` raised by the language. -/
inductive Abort where
  | exit (logs : List String) (code : Nat)
  | typeError (message : String)

/-- `v.hasOwnProperty(name)`: a `TypeError` when `v` is `null` or `undefined`, and when
`v` has an own property `hasOwnProperty` (a value from `package.json`, which is not a
function) hiding the inherited method. -/
def Value.hasOwnProperty (v : Value) (name : String) : Except Abort Bool :=
  match v with
  | Value.undefined => Except.error (Abort.typeError "Cannot read property 'hasOwnProperty' of undefined")
  | Value.null => Except.error (Abort.typeError "Cannot read property 'hasOwnProperty' of null")
  | Value.obj props =>
    if props.any (fun kv => kv.1 == "hasOwnProperty") then
      Except.error (Abort.typeError "hasOwnProperty is not a function")
    else Except.ok (props.any (fun kv => kv.1 == name))
  | Value.arr items =>
    Except.ok ((Value.arr items).ownProps.any (fun kv => kv.1 == name) || name == "length")
  | Value.str s =>
    Except.ok ((Value.str s).ownProps.any (fun kv => kv.1 == name) || name == "length")
  | _ => Except.ok false

/-- A property of a proxy rule: a plain value, or one of the functions that
`prepareProxy` generates, named by where it is created and what it closes over. -/
inductive RuleValue where
  | json (v : Value)
  | contextOfString (appPublicFolder : String)
  | contextOfKey (appPublicFolder : String) (context : String)
  | onProxyReq (target : Value)
  | onError (target : Value)

/-- A proxy rule: its properties in enumeration order. -/
abbrev Rule := List (String × RuleValue)

/-- Assignment `o[k] = v` on a list of properties: an existing property keeps its place. -/
def setProp (o : Rule) (k : String) (v : RuleValue) : Rule :=
  if o.any (fun kv => kv.1 == k) then
    o.map (fun kv => if kv.1 = k then (k, v) else kv)
  else o ++ [(k, v)]

/-- `Object.assign(o, src)`. -/
def assign (o : Rule) (src : List (String × RuleValue)) : Rule :=
  src.foldl (fun acc kv => setProp acc kv.1 kv.2) o

/-- `rule[name]`. -/
def Rule.getProp (rule : Rule) (name : String) : Option RuleValue :=
  rule.lookup name

/-- One question of `inquirer.prompt`. -/
structure Question where
  type : String
  name : String
  message : String
  default : Bool
deriving DecidableEq, Repr

/-- The effects of `choosePort`, in the order in which they happen. -/
inductive Effect where
  | clearConsole
  | prompt (question : Question)
  | log (line : String)
deriving DecidableEq, Repr

/-- What `webpackDevServerUtils.js` reads from its surroundings: `process.platform`,
`isRoot()`, `process.stdout.isTTY`, the port found by `detect(defaultPort, host)` (or the
`message` of the error it rejects with), the function that `getProcessForPort.js`
declares, the answer `shouldChangePort` typed at a prompt, `chalk`, and
`resolveLoopback`. -/
structure Env where
  platform : String
  isRoot : Bool
  isInteractive : Bool
  detect : Nat → String → Except (Option String) Nat
  getProcessForPort : Nat → Option String
  answer : Question → Bool
  paint : Color → String → String
  resolveLoopback : Value → Value

/-- The regular expression `/^http(s)?:\/\//` applied to the characters of a string. -/
def testHttp : List Char → Bool
  | 'h' :: 't' :: 't' :: 'p' :: 's' :: ':' :: '/' :: '/' :: _ => true
  | 'h' :: 't' :: 't' :: 'p' :: ':' :: '/' :: '/' :: _ => true
  | _ => false

/-- The message printed when a context of an object `proxy` has no `target`. -/
def missingTargetMessage : String :=
  "When `proxy` in package.json is as an object, each `context` object must have a " ++
  "`target` property specified as a url string"

/-- The variable `target` of the callback given to `Object.keys(proxy).map`, for the
value `v` of `proxy[context]`. -/
def proxyTarget (env : Env) (v : Value) : Value :=
  if env.platform = "win32" then env.resolveLoopback (v.getProp "target")
  else v.getProp "target"

/-- The object returned by the callback given to `Object.keys(proxy).map`:
`Object.assign` of an empty object, `proxy[context]` and the generated properties. -/
def proxyRule (env : Env) (proxy : Value) (appPublicFolder : String) (context : String) : Rule :=
  assign
    (assign [] ((proxy.getProp context).ownProps.map (fun kv => (kv.1, RuleValue.json kv.2))))
    [("context", RuleValue.contextOfKey appPublicFolder context),
     ("onProxyReq", RuleValue.onProxyReq (proxyTarget env (proxy.getProp context))),
     ("target", RuleValue.json (proxyTarget env (proxy.getProp context))),
     ("onError", RuleValue.onError (proxyTarget env (proxy.getProp context)))]

/-- The callback given to `Object.keys(proxy).map`, applied to the keys in order; the
first call that does not return ends the whole computation. -/
def proxyRules (env : Env) (proxy : Value) (appPublicFolder : String) :
    List String → Except Abort (List Rule)
  | [] => Except.ok []
  | context :: rest =>
    match (proxy.getProp context).hasOwnProperty "target" with
    | Except.error e => Except.error e
    | Except.ok false => Except.error (Abort.exit [env.paint Color.red missingTargetMessage] 1)
    | Except.ok true =>
      match proxyRules env proxy appPublicFolder rest with
      | Except.error e => Except.error e
      | Except.ok rules => Except.ok (proxyRule env proxy appPublicFolder context :: rules)

/-- The function `prepareProxy`: `none` is `undefined`. -/
def prepareProxy (env : Env) (proxy : Value) (appPublicFolder : String) :
    Except Abort (Option (List Rule)) :=
  if !proxy.truthy then Except.ok none
  else if proxy.typeof ≠ "object" ∧ proxy.typeof ≠ "string" then
    Except.error (Abort.exit
      [env.paint Color.red "When specified, \"proxy\" in package.json must be a string or an object.",
       env.paint Color.red ("Instead, the type of \"proxy\" was \"" ++ proxy.typeof ++ "\"."),
       env.paint Color.red "Either remove \"proxy\" from package.json, or make it an object"] 1)
  else
    match proxy with
    | Value.str s =>
      if !testHttp s.data then
        Except.error (Abort.exit
          [env.paint Color.red
            "When \"proxy\" is specified in package.json it must start with either http:// or https://"] 1)
      else
        let target := if env.platform = "win32" then env.resolveLoopback proxy else proxy
        Except.ok (some [
          [("target", RuleValue.json target),
           ("logLevel", RuleValue.json (Value.str "slient")),
           ("context", RuleValue.contextOfString appPublicFolder),
           ("onProxyReq", RuleValue.onProxyReq target),
           ("onError", RuleValue.onError target),
           ("secure", RuleValue.json (Value.bool false)),
           ("changeOrigin", RuleValue.json (Value.bool true)),
           ("ws", RuleValue.json (Value.bool true)),
           ("xfwd", RuleValue.json (Value.bool true))]])
    | _ =>
      match proxyRules env proxy appPublicFolder proxy.keys with
      | Except.error e => Except.error e
      | Except.ok rules => Except.ok (some rules)

/-- The constant `message` of `choosePort`. -/
def portMessage (env : Env) (defaultPort : Nat) : String :=
  if env.platform ≠ "win32" ∧ defaultPort < 1024 ∧ env.isRoot = false then
    "Admin permissions are required to run a server on a port below 1024."
  else "Something is already running on port " ++ toString defaultPort ++ "."

/-- What `require` gives for a module of this program: the function itself when the
module assigns it to `module.exports`, or the object of the module's exports, whose
property `default` holds the function, when the module declares it with
`export default`. -/
inductive Required where
  | callable (f : Nat → Option String)
  | exportsObject (default : Nat → Option String)

/-- The constant `getProcessForPort` of `webpackDevServerUtils.js`, bound by
`require('./getProcessForPort')`: `getProcessForPort.js` ends with
`export default getProcessForPort`, so the constant is the object of its exports. -/
def getProcessForPort (env : Env) : Required :=
  Required.exportsObject env.getProcessForPort

/-- The call `binding(port)`: calling an object that is not a function raises a
`TypeError`. -/
def Required.call : Required → Nat → Except String (Option String)
  | Required.callable f, port => Except.ok (f port)
  | Required.exportsObject _, _ => Except.error "TypeError: getProcessForPort is not a function"

/-- The constant `question` of `choosePort`, for the value of `existingProcess`. -/
def portQuestion (env : Env) (defaultPort : Nat) (existingProcess : Option String) : Question :=
  ⟨"confirm", "shouldChangePort",
   env.paint Color.yellow
      (portMessage env defaultPort ++
        (if truthyStr existingProcess then " Probably:\n  " ++ toStr existingProcess
         else "")) ++
     "\n\nWould you like to run the app on another port instead?",
   true⟩

/-- How the promise returned by `choosePort` settles: the effects that happened, and the
value it resolves to (`none` is `null`) or the message of the error it rejects with. -/
structure Settled where
  effects : List Effect
  result : Except String (Option Nat)

/-- The function `choosePort`. An exception raised inside the executor of the promise
rejects the promise. -/
def choosePort (env : Env) (host : String) (defaultPort : Nat) : Settled :=
  match env.detect defaultPort host with
  | Except.ok port =>
    if port = defaultPort then ⟨[], Except.ok (some port)⟩
    else if env.isInteractive then
      match (getProcessForPort env).call defaultPort with
      | Except.error e => ⟨[Effect.clearConsole], Except.error e⟩
      | Except.ok existingProcess =>
        if env.answer (portQuestion env defaultPort existingProcess) then
          ⟨[Effect.clearConsole, Effect.prompt (portQuestion env defaultPort existingProcess)],
            Except.ok (some port)⟩
        else
          ⟨[Effect.clearConsole, Effect.prompt (portQuestion env defaultPort existingProcess)],
            Except.ok none⟩
    else ⟨[Effect.log (env.paint Color.red (portMessage env defaultPort))], Except.ok none⟩
  | Except.error err =>
    ⟨[], Except.error
      (env.paint Color.red ("Could not find an open port at " ++ env.paint Color.bold host ++ ".") ++
        "\n" ++ ("Network error message: " ++ toStr err) ++ "\n")⟩

end DevServer

/-! ## `utils/interpolateHtmlPlugin.js` -/

namespace Interpolate

/-- The characters that the package `escape-string-regexp` escapes, those of its
expression `/[|\\{}()[\]^$+*?.]/g`. -/
def isOperator (c : Char) : Bool :=
  c == '|' || c == '\\' || c == '{' || c == '}' || c == '(' || c == ')' || c == '[' ||
    c == ']' || c == '^' || c == '$' || c == '+' || c == '*' || c == '?' || c == '.'

/-- The function `escapeStringRegexp` of that package: `str.replace(matchOperatorsRe,
'\\$&')`, a backslash before every operator character. -/
def escapeStringRegexp : List Char → List Char
  | [] => []
  | c :: rest =>
    if isOperator c then '\\' :: c :: escapeStringRegexp rest else c :: escapeStringRegexp rest

/-- The text matched by a regular expression whose source consists of ordinary characters
and of operator characters preceded by a backslash: the source with those backslashes
taken off. The result is `none` for a source outside this fragment. -/
def literalOfPattern : List Char → Option (List Char)
  | [] => some []
  | [c] => if isOperator c then none else some [c]
  | c :: d :: rest =>
    if c = '\\' then
      if isOperator d then (literalOfPattern rest).map (fun l => d :: l) else none
    else if isOperator c then none
    else (literalOfPattern (d :: rest)).map (fun l => c :: l)

/-- The replacement text of one match (`GetSubstitution`, for an expression without
capture groups): in the replacement string `$$` stands for `$`, `$&` for the matched
text, a dollar followed by a backtick for the text before the match, a dollar followed by
an apostrophe for the text after it; any other `$` stands for itself. -/
def getSubstitution (matched before after : List Char) : List Char → List Char
  | [] => []
  | [c] => [c]
  | c :: d :: rest =>
    if c = '$' then
      if d = '$' then '$' :: getSubstitution matched before after rest
      else if d = '&' then matched ++ getSubstitution matched before after rest
      else if d = Char.ofNat 96 then before ++ getSubstitution matched before after rest
      else if d = Char.ofNat 39 then after ++ getSubstitution matched before after rest
      else c :: getSubstitution matched before after (d :: rest)
    else c :: getSubstitution matched before after (d :: rest)

/-- Worker of `replaceAll`: `before` is the text already scanned, `skip` the number of
characters of the current match still to pass over. -/
def replaceGo (p : Char) (ps value : List Char) : List Char → Nat → List Char → List Char
  | _, _, [] => []
  | before, skip + 1, c :: cs => replaceGo p ps value (before ++ [c]) skip cs
  | before, 0, c :: cs =>
    if (p :: ps).isPrefixOf (c :: cs) then
      getSubstitution (p :: ps) before (cs.drop ps.length) value ++
        replaceGo p ps value (before ++ [c]) ps.length cs
    else c :: replaceGo p ps value (before ++ [c]) 0 cs

/-- `html.replace(re, value)` for a global expression `re` that matches the text
`p :: ps`: the matches are found from left to right, each search starting where the
previous match ended. -/
def replaceAll (p : Char) (ps value html : List Char) : List Char :=
  replaceGo p ps value [] 0 html

/-- One turn of the `forEach` callback:
`html.replace(new RegExp('%' + escapeStringRegexp(key) + '%', 'g'), value)`. The result is
`none` when the source of the expression is outside the fragment of `literalOfPattern`. -/
def interpolateKey (html key value : List Char) : Option (List Char) :=
  match literalOfPattern ('%' :: (escapeStringRegexp key ++ ['%'])) with
  | some (p :: ps) => some (replaceAll p ps value html)
  | _ => none

/-- `replacements[key]`, converted to a string as `replace` does. -/
def valueOf (replacements : List (String × String)) (key : String) : String :=
  toStr (replacements.lookup key)

/-- The `forEach` loop over the given keys, on `data.html`. -/
def interpolateKeys (replacements : List (String × String)) :
    List String → List Char → Option (List Char)
  | [], html => some html
  | key :: rest, html =>
    match interpolateKey html key.data (valueOf replacements key).data with
    | some next => interpolateKeys replacements rest next
    | none => none

/-- The hook that `apply` installs: the new `data.html`, for `replacements` listed in the
order of `Object.keys`. -/
def hook (replacements : List (String × String)) (html : String) : Option String :=
  (interpolateKeys replacements (replacements.map Prod.fst) html.data).map String.mk

/-- Worker of `substituteAll`. -/
def substituteGo (p : Char) (ps value : List Char) : Nat → List Char → List Char
  | _, [] => []
  | skip + 1, _ :: cs => substituteGo p ps value skip cs
  | 0, c :: cs =>
    if (p :: ps).isPrefixOf (c :: cs) then value ++ substituteGo p ps value ps.length cs
    else c :: substituteGo p ps value 0 cs

/-- Specification of one replacement, in the words of the claim: every occurrence of the
text `p :: ps`, taken from left to right, is replaced by `value` itself, and the text
outside the occurrences is unchanged. -/
def substituteAll (p : Char) (ps value html : List Char) : List Char :=
  substituteGo p ps value 0 html

/-- Specification of the hook, in the words of the claim: for each key in turn, every
occurrence of `'%' + key + '%'` is replaced by that key's value. -/
def interpolateSpec (replacements : List (String × String)) : List String → List Char → List Char
  | [], html => html
  | key :: rest, html =>
    interpolateSpec replacements rest
      (substituteAll '%' (key.data ++ ['%']) (valueOf replacements key).data html)

end Interpolate

/-! ## Lemmas on the JavaScript helpers -/

theorem findIndexFrom_none {α : Type} (p : α → Bool) (xs : List α) (k : Nat)
    (h : ∀ x ∈ xs, p x = false) : findIndexFrom p xs k = -1 := by
  induction xs generalizing k with
  | nil => rfl
  | cons x xs ih =>
    have hx : p x = false := h x (List.mem_cons_self _ _)
    simp only [findIndexFrom, hx]
    exact ih (k + 1) (fun y hy => h y (List.mem_cons_of_mem _ hy))

theorem findIndexFrom_first {α : Type} (p : α → Bool) (xs : List α) (k i : Nat)
    (hi : i < xs.length) (hp : p (xs.get ⟨i, hi⟩) = true)
    (hfirst : ∀ j (hj : j < xs.length), j < i → p (xs.get ⟨j, hj⟩) = false) :
    findIndexFrom p xs k = ((k + i : Nat) : Int) := by
  induction xs generalizing k i with
  | nil => simp at hi
  | cons x xs ih =>
    cases i with
    | zero =>
      simp only [List.get_eq_getElem, List.getElem_cons_zero] at hp
      simp [findIndexFrom, hp]
    | succ i =>
      have hx : p x = false := by
        have := hfirst 0 (by simp) (by omega)
        simpa using this
      have hi2 : i < xs.length := by simpa using hi
      have := ih (k + 1) i hi2 (by simpa using hp)
        (fun j hj hji => by
          have := hfirst (j + 1) (by simpa using hj) (by omega)
          simpa using this)
      have e : findIndexFrom p (x :: xs) k = findIndexFrom p xs (k + 1) := by
        simp [findIndexFrom, hx]
      rw [e, this]
      push_cast
      omega

theorem at?_ofNat {α : Type} (xs : List α) (i : Nat) (hi : i < xs.length) :
    at? xs (i : Int) = some (xs.get ⟨i, hi⟩) := by
  have h : ¬ ((i : Int) < 0) := by omega
  simp [at?, h, List.getElem?_eq_getElem hi]

theorem sliceFrom_ofNat {α : Type} (xs : List α) (i : Nat) :
    sliceFrom xs (i : Int) = xs.drop i := by
  have h : ¬ ((i : Int) < 0) := by omega
  simp only [sliceFrom, relIndex, h, if_false, Int.toNat_ofNat]
  by_cases hle : i ≤ xs.length
  · rw [Nat.min_eq_left hle]
  · have hge : xs.length ≤ i := by omega
    rw [Nat.min_eq_right hge, List.drop_of_length_le hge, List.drop_of_length_le (le_refl _)]

theorem slice_zero_ofNat {α : Type} (xs : List α) (i : Nat) :
    slice xs 0 (i : Int) = xs.take i := by
  have h : ¬ ((i : Int) < 0) := by omega
  simp only [slice, relIndex, h, if_false, Int.toNat_ofNat, lt_self_iff_false, Int.toNat_zero,
    Nat.zero_min, List.drop_zero, Nat.sub_zero]
  by_cases hle : i ≤ xs.length
  · rw [Nat.min_eq_left hle]
  · have hge : xs.length ≤ i := by omega
    rw [Nat.min_eq_right hge, List.take_of_length_le hge, List.take_of_length_le (le_refl _)]

namespace Cli

theorem isScript_iff (x : String) : isScript x = true ↔ (x = "build" ∨ x = "start") := by
  simp [isScript]

theorem isScript_false_iff (x : String) :
    isScript x = false ↔ (x ≠ "build" ∧ x ≠ "start") := by
  simp [isScript]

theorem scriptIndex_of_first (args : List String) (i : Nat) (hi : i < args.length)
    (hs : args[i] = "build" ∨ args[i] = "start")
    (hfirst : ∀ j (hj : j < args.length), j < i → args[j] ≠ "build" ∧ args[j] ≠ "start") :
    scriptIndex args = (i : Int) := by
  have := findIndexFrom_first isScript args 0 i hi ((isScript_iff _).2 hs)
    (fun j hj hji => (isScript_false_iff _).2 (hfirst j hj hji))
  simpa [scriptIndex, findIndex] using this

theorem scriptIndex_of_none (args : List String)
    (h : ∀ x ∈ args, x ≠ "build" ∧ x ≠ "start") : scriptIndex args = -1 :=
  findIndexFrom_none isScript args 0 (fun x hx => (isScript_false_iff x).2 (h x hx))

/-- C1: when `'build'` or `'start'` occurs in the arguments, first at index `i`, and the
script module resolves to `path`, the dispatcher spawns exactly one child, `node`, whose
arguments are `args[0..i)`, then `path`, then `args[i+1..]` in their original order. -/
theorem run_spawns_script (resolve : String → Option String)
    (spawnSync : SpawnCall → SpawnResult) (args : List String) (i : Nat) (path : String)
    (hi : i < args.length)
    (hs : args[i] = "build" ∨ args[i] = "start")
    (hfirst : ∀ j (hj : j < args.length), j < i → args[j] ≠ "build" ∧ args[j] ≠ "start")
    (hres : resolve ("../scripts/" ++ args[i]) = some path) :
    (run resolve spawnSync args).spawned =
      [⟨"node", args.take i ++ path :: args.drop (i + 1), "inherit"⟩] := by
  have hidx : scriptIndex args = (i : Int) := scriptIndex_of_first args i hi hs hfirst
  have hne : ¬ ((i : Int) = -1) := by omega
  have hscript : script args = some args[i] := by
    simp only [script, hidx, hne, if_false]
    exact at?_ofNat args i hi
  have hnode : nodeArgs args = args.take i := by
    simp only [nodeArgs, hidx]
    by_cases h0 : (i : Int) > 0
    · simp only [h0, if_true]
      exact slice_zero_ofNat args i
    · have : i = 0 := by omega
      subst this
      simp
  have hrest : sliceFrom args (scriptIndex args + 1) = args.drop (i + 1) := by
    rw [hidx]
    exact sliceFrom_ofNat args (i + 1)
  simp only [run, hscript, hs, if_true, hres, hnode, hrest]
  simp

/-- Witness of `run_spawns_script`: `uwebpack --inspect start --port build`. -/
theorem run_spawns_script_witness :
    (run (fun _ => some "/lib/scripts/start.js") (fun _ => ⟨none, some 0⟩)
        ["--inspect", "start", "--port", "build"]).spawned =
      [⟨"node", ["--inspect", "/lib/scripts/start.js", "--port", "build"], "inherit"⟩] :=
  run_spawns_script (fun _ => some "/lib/scripts/start.js") (fun _ => ⟨none, some 0⟩)
    ["--inspect", "start", "--port", "build"] 1 "/lib/scripts/start.js"
    (by decide) (by decide)
    (by
      intro j hj hlt
      have : j = 0 := by omega
      subst this
      show ("--inspect" : String) ≠ "build" ∧ ("--inspect" : String) ≠ "start"
      decide)
    rfl

theorem run_spawned_cases (resolve : String → Option String)
    (spawnSync : SpawnCall → SpawnResult) (args : List String) (call : SpawnCall)
    (h : (run resolve spawnSync args).spawned = [call]) :
    (run resolve spawnSync args).ending = (afterSpawn (spawnSync call)).2 := by
  unfold run at h ⊢
  cases hsc : script args with
  | none => simp [hsc] at h
  | some s =>
    by_cases hs : s = "build" ∨ s = "start"
    · cases hres : resolve ("../scripts/" ++ s) with
      | none => simp [hsc, hs, hres] at h
      | some path =>
        simp only [hsc, hs, if_true, hres, List.cons.injEq, and_true] at h ⊢
        rw [h]
    · simp [hsc, hs] at h

/-- C2: whatever the child process returned, if it was terminated by a signal (any
signal name) the dispatcher calls `process.exit(1)`, and if no signal is reported it
calls `process.exit` with the child's exit status. -/
theorem run_exit_status (resolve : String → Option String)
    (spawnSync : SpawnCall → SpawnResult) (args : List String) (call : SpawnCall)
    (h : (run resolve spawnSync args).spawned = [call]) :
    (∀ sig, (spawnSync call).signal = some sig → sig ≠ "" →
        (run resolve spawnSync args).ending = Ending.exited (some 1)) ∧
    ((spawnSync call).signal = none →
        (run resolve spawnSync args).ending = Ending.exited (spawnSync call).status) := by
  rw [run_spawned_cases resolve spawnSync args call h]
  constructor
  · intro sig hsig hne
    simp [afterSpawn, hsig, truthyStr, hne]
  · intro hnone
    simp [afterSpawn, hnone, truthyStr]

/-- Witness of `run_exit_status`: a child killed by `SIGHUP` (exit 1) and a child that
exits with status 3, for `uwebpack build`. -/
theorem run_exit_status_witness :
    (run (fun _ => some "/lib/scripts/build.js") (fun _ => ⟨some "SIGHUP", none⟩)
        ["build"]).ending = Ending.exited (some 1) ∧
    (run (fun _ => some "/lib/scripts/build.js") (fun _ => ⟨none, some 3⟩)
        ["build"]).ending = Ending.exited (some 3) :=
  ⟨(run_exit_status (fun _ => some "/lib/scripts/build.js") (fun _ => ⟨some "SIGHUP", none⟩)
      ["build"] ⟨"node", ["/lib/scripts/build.js"], "inherit"⟩ rfl).1 "SIGHUP" rfl (by decide),
   (run_exit_status (fun _ => some "/lib/scripts/build.js") (fun _ => ⟨none, some 3⟩)
      ["build"] ⟨"node", ["/lib/scripts/build.js"], "inherit"⟩ rfl).2 rfl⟩

theorem script_of_none (args : List String)
    (h : ∀ x ∈ args, x ≠ "build" ∧ x ≠ "start") : script args = args.head? := by
  simp only [script, scriptIndex_of_none args h, if_true]
  cases args <;> simp [at?]

/-- C3: when neither `'build'` nor `'start'` occurs in the arguments, the dispatcher
spawns nothing, prints `Unknown script "<args[0]>".` after its three diagnostic lines
(`args[0]` being rendered as `undefined` when there is no argument) and does not call
`process.exit`. -/
theorem run_unknown_script (resolve : String → Option String)
    (spawnSync : SpawnCall → SpawnResult) (args : List String)
    (h : ∀ x ∈ args, x ≠ "build" ∧ x ≠ "start") :
    (run resolve spawnSync args).spawned = [] ∧
    (run resolve spawnSync args).logs =
      preamble args ++ [Log.text ("Unknown script \"" ++ toStr args.head? ++ "\".")] ∧
    (run resolve spawnSync args).ending = Ending.fellThrough := by
  have hsc := script_of_none args h
  unfold run
  cases hh : args.head? with
  | none => simp [hsc, hh]
  | some a =>
    have ha : a ∈ args := List.mem_of_mem_head? hh
    have hna : ¬ (a = "build" ∨ a = "start") := by
      have := h a ha
      tauto
    simp [hsc, hh, hna]

/-- Witness of `run_unknown_script`: `uwebpack eject --force`. -/
theorem run_unknown_script_witness :
    (run (fun _ => none) (fun _ => ⟨none, some 0⟩) ["eject", "--force"]).spawned = [] ∧
    (run (fun _ => none) (fun _ => ⟨none, some 0⟩) ["eject", "--force"]).logs =
      preamble ["eject", "--force"] ++ [Log.text "Unknown script \"eject\"."] ∧
    (run (fun _ => none) (fun _ => ⟨none, some 0⟩) ["eject", "--force"]).ending =
      Ending.fellThrough :=
  run_unknown_script (fun _ => none) (fun _ => ⟨none, some 0⟩) ["eject", "--force"]
    (by decide)

end Cli

/-! ## Properties of `config/paths.js` -/

theorem endsWith_iff (s t : String) : endsWith s t = true ↔ t.data <:+ s.data := by
  simp [endsWith]

theorem endsWith_slash_iff (s : String) :
    endsWith s "/" = true ↔ ∃ l, s.data = l ++ ['/'] := by
  rw [endsWith_iff]
  constructor
  · rintro ⟨l, hl⟩
    exact ⟨l, hl.symm⟩
  · rintro ⟨l, hl⟩
    exact ⟨l, hl.symm⟩

theorem endsWith_append_self (s t : String) : endsWith (s ++ t) t = true := by
  rw [endsWith_iff, String.data_append]
  exact List.suffix_append _ _

theorem truthyStr_some (u : String) : truthyStr (some u) = true ↔ u ≠ "" := by
  simp [truthyStr]

theorem truthyStr_eq_false (v : Option String) :
    truthyStr v = false ↔ (v = none ∨ v = some "") := by
  cases v with
  | none => simp [truthyStr]
  | some u => simp [truthyStr]

namespace Paths

theorem ensureSlash_true_eq (inputPath : String) :
    ensureSlash inputPath true =
      if endsWith inputPath "/" = true then inputPath else inputPath ++ "/" := by
  unfold ensureSlash
  by_cases h : endsWith inputPath "/" = true <;> simp [h]

theorem ensureSlash_true_endsWith (inputPath : String) :
    endsWith (ensureSlash inputPath true) "/" = true := by
  rw [ensureSlash_true_eq]
  by_cases h : endsWith inputPath "/" = true
  · simp [h]
  · simp only [h, if_false]
    exact endsWith_append_self inputPath "/"

/-- C5: `ensureSlash(inputPath, true)` ends with `/`; it is `inputPath` itself when that
already ends with `/`, and `inputPath` followed by a single `/` otherwise. -/
theorem ensureSlash_true (inputPath : String) :
    endsWith (ensureSlash inputPath true) "/" = true ∧
    ensureSlash inputPath true =
      (if endsWith inputPath "/" = true then inputPath else inputPath ++ "/") := by
  exact ⟨ensureSlash_true_endsWith inputPath, ensureSlash_true_eq inputPath⟩

theorem ensureSlash_false_of_slash (inputPath : String) (l : List Char)
    (h : inputPath.data = l ++ ['/']) : ensureSlash inputPath false = String.mk l := by
  have hs : endsWith inputPath "/" = true := (endsWith_slash_iff inputPath).2 ⟨l, h⟩
  have hlen : inputPath.length = l.length + 1 := by
    show inputPath.data.length = l.length + 1
    rw [h]
    simp
  simp [ensureSlash, hs, substr, h, hlen]

theorem ensureSlash_false_of_not_slash (inputPath : String)
    (h : endsWith inputPath "/" = false) : ensureSlash inputPath false = inputPath := by
  simp [ensureSlash, h]

/-- C6, as stated, fails: `ensureSlash('a//', false)` is `'a/'`, which ends with `/`. -/
theorem ensureSlash_false_keeps_slash :
    ensureSlash "a//" false = "a/" ∧ endsWith (ensureSlash "a//" false) "/" = true := by
  decide

/-- C6, amended: `ensureSlash(inputPath, false)` removes one trailing `/`: when
`inputPath` ends with `/` the result followed by `/` is `inputPath`, otherwise the result
is `inputPath`; so the result ends with `/` exactly when `inputPath` ends with `//`. -/
theorem ensureSlash_false (inputPath : String) :
    (endsWith inputPath "/" = true → ensureSlash inputPath false ++ "/" = inputPath) ∧
    (endsWith inputPath "/" = false → ensureSlash inputPath false = inputPath) ∧
    (endsWith (ensureSlash inputPath false) "/" = true ↔ endsWith inputPath "//" = true) := by
  refine ⟨?_, ensureSlash_false_of_not_slash inputPath, ?_⟩
  · intro h
    obtain ⟨l, hl⟩ := (endsWith_slash_iff inputPath).1 h
    rw [ensureSlash_false_of_slash inputPath l hl]
    apply String.ext
    rw [String.data_append, hl]
  · by_cases h : endsWith inputPath "/" = true
    · obtain ⟨l, hl⟩ := (endsWith_slash_iff inputPath).1 h
      rw [ensureSlash_false_of_slash inputPath l hl, endsWith_iff, endsWith_iff, hl]
      show ['/'] <:+ l ↔ ['/', '/'] <:+ l ++ ['/']
      constructor
      · rintro ⟨m, hm⟩
        exact ⟨m, by rw [← hm]; simp⟩
      · rintro ⟨m, hm⟩
        refine ⟨m, ?_⟩
        have : (m ++ ['/']) ++ ['/'] = l ++ ['/'] := by rw [← hm]; simp
        exact List.append_cancel_right this
    · have hf : endsWith inputPath "/" = false := by simpa using h
      rw [ensureSlash_false_of_not_slash inputPath hf]
      constructor
      · intro h1
        exact absurd h1 h
      · intro h2
        exfalso
        apply h
        rw [endsWith_iff] at h2 ⊢
        exact List.IsSuffix.trans ⟨['/'], rfl⟩ h2

/-- Witness of `ensureSlash_false`: one slash is removed from `'build/'`. -/
theorem ensureSlash_false_witness : ensureSlash "build/" false ++ "/" = "build/" :=
  (ensureSlash_false "build/").1 (by decide)


theorem getServedPath_of_env (env : Env) (appPackageJson u : String)
    (hu : env.envPublicUrl = some u) (hne : u ≠ "") :
    getServedPath env appPackageJson = some (ensureSlash u true) := by
  have ht : truthyStr (some u) = true := (truthyStr_some u).2 hne
  simp [getServedPath, hu, ht]

theorem getServedPath_of_homepage (env : Env) (appPackageJson h : String)
    (hf : truthyStr env.envPublicUrl = false)
    (hh : env.homepage appPackageJson = some h) (hne : h ≠ "") :
    getServedPath env appPackageJson =
      (env.pathname h).map (fun p => ensureSlash p true) := by
  have ht : truthyStr (some h) = true := (truthyStr_some h).2 hne
  cases hp : env.pathname h <;>
    simp [getServedPath, getPublicUrl, orElse, hf, hh, ht, hp]

theorem getServedPath_of_neither (env : Env) (appPackageJson : String)
    (hf : truthyStr env.envPublicUrl = false)
    (hh : truthyStr (env.homepage appPackageJson) = false) :
    getServedPath env appPackageJson = some "/" := by
  have e : ensureSlash "/" true = "/" := by decide
  have ht0 : truthyStr (some "") = false := rfl
  rcases (truthyStr_eq_false _).1 hh with h0 | h0
  · simp [getServedPath, getPublicUrl, orElse, hf, h0, e]
  · simp [getServedPath, getPublicUrl, orElse, hf, h0, ht0, e]

/-- C7: the served path comes from `PUBLIC_URL` or from `homepage` and ends with `/`.
With a non-empty `PUBLIC_URL`, `getServedPath` returns `ensureSlash(PUBLIC_URL, true)`
whatever `homepage` is; with no (or an empty) `PUBLIC_URL` and a non-empty `homepage`
whose URL has the path name `p`, it returns `ensureSlash(p, true)`; with neither, it
returns `/`. Every value it returns ends with `/`, and it fails to return only when
`homepage` is used and its URL has no path name. -/
theorem getServedPath_spec (env : Env) (appPackageJson : String) :
    (∀ u, env.envPublicUrl = some u → u ≠ "" →
        getServedPath env appPackageJson = some (ensureSlash u true)) ∧
    (truthyStr env.envPublicUrl = false →
      ∀ h, env.homepage appPackageJson = some h → h ≠ "" →
      ∀ p, env.pathname h = some p →
        getServedPath env appPackageJson = some (ensureSlash p true)) ∧
    (truthyStr env.envPublicUrl = false → truthyStr (env.homepage appPackageJson) = false →
        getServedPath env appPackageJson = some "/") ∧
    (∀ r, getServedPath env appPackageJson = some r → endsWith r "/" = true) ∧
    (getServedPath env appPackageJson = none ↔
      (truthyStr env.envPublicUrl = false ∧
        ∃ h, env.homepage appPackageJson = some h ∧ h ≠ "" ∧ env.pathname h = none)) := by
  refine ⟨getServedPath_of_env env appPackageJson, ?_,
    getServedPath_of_neither env appPackageJson, ?_, ?_⟩
  · intro hf h hh hne p hp
    rw [getServedPath_of_homepage env appPackageJson h hf hh hne, hp]
    rfl
  · intro r hr
    by_cases ht : truthyStr env.envPublicUrl = true
    · cases hu : env.envPublicUrl with
      | none => rw [hu] at ht; exact absurd ht (by decide)
      | some u =>
        rw [hu] at ht
        rw [getServedPath_of_env env appPackageJson u hu ((truthyStr_some u).1 ht)] at hr
        cases hr
        exact ensureSlash_true_endsWith u
    · have hf : truthyStr env.envPublicUrl = false := by simpa using ht
      by_cases hh : truthyStr (env.homepage appPackageJson) = true
      · cases hv : env.homepage appPackageJson with
        | none => rw [hv] at hh; exact absurd hh (by decide)
        | some h =>
          rw [hv] at hh
          rw [getServedPath_of_homepage env appPackageJson h hf hv
            ((truthyStr_some h).1 hh)] at hr
          cases hp : env.pathname h with
          | none => rw [hp] at hr; cases hr
          | some q =>
            rw [hp] at hr
            cases hr
            exact ensureSlash_true_endsWith q
      · have hh2 : truthyStr (env.homepage appPackageJson) = false := by simpa using hh
        rw [getServedPath_of_neither env appPackageJson hf hh2] at hr
        cases hr
        decide
  · constructor
    · intro hn
      by_cases ht : truthyStr env.envPublicUrl = true
      · cases hu : env.envPublicUrl with
        | none => rw [hu] at ht; exact absurd ht (by decide)
        | some u =>
          rw [hu] at ht
          rw [getServedPath_of_env env appPackageJson u hu ((truthyStr_some u).1 ht)] at hn
          cases hn
      · have hf : truthyStr env.envPublicUrl = false := by simpa using ht
        refine ⟨hf, ?_⟩
        by_cases hh : truthyStr (env.homepage appPackageJson) = true
        · cases hv : env.homepage appPackageJson with
          | none => rw [hv] at hh; exact absurd hh (by decide)
          | some h =>
            rw [hv] at hh
            have hne := (truthyStr_some h).1 hh
            rw [getServedPath_of_homepage env appPackageJson h hf hv hne] at hn
            refine ⟨h, rfl, hne, ?_⟩
            cases hp : env.pathname h with
            | none => rfl
            | some q => rw [hp] at hn; cases hn
        · have hh2 : truthyStr (env.homepage appPackageJson) = false := by simpa using hh
          rw [getServedPath_of_neither env appPackageJson hf hh2] at hn
          cases hn
    · rintro ⟨hf, h, hh, hne, hp⟩
      rw [getServedPath_of_homepage env appPackageJson h hf hh hne, hp]
      rfl

/-- Witness of `getServedPath_spec`: no `PUBLIC_URL`, and a `homepage` whose URL has the
path name `/app`. -/
theorem getServedPath_spec_witness :
    getServedPath ⟨none, fun _ => some "http://example.com/app", fun _ => some "/app"⟩
        "package.json" = some (ensureSlash "/app" true) :=
  (getServedPath_spec ⟨none, fun _ => some "http://example.com/app", fun _ => some "/app"⟩
    "package.json").2.1 rfl "http://example.com/app" rfl (by decide) "/app" rfl

end Paths

/-! ## Properties of `utils/openBrowser.js` -/

namespace Browser

theorem getBrowserEnv_value (env : Env) : (getBrowserEnv env).2 = env.browser := rfl

theorem action_of_none (env : Env) (v : String) (hv : env.browser = some v)
    (h : toLowerCase v = "none") : (getBrowserEnv env).1 = Actions.NONE := by
  have hne : v ≠ "" := by
    rintro rfl
    exact absurd h (by decide)
  have ht : truthyStr (some v) = true := (truthyStr_some v).2 hne
  have hjs : endsWith "none" ".js" = false := by decide
  simp [getBrowserEnv, hv, ht, h, hjs]

theorem action_of_js (env : Env) (v : String) (hv : env.browser = some v)
    (h : endsWith (toLowerCase v) ".js" = true) : (getBrowserEnv env).1 = Actions.SCRIPT := by
  have hne : v ≠ "" := by
    rintro rfl
    exact absurd h (by decide)
  have ht : truthyStr (some v) = true := (truthyStr_some v).2 hne
  simp [getBrowserEnv, hv, ht, h]

theorem action_of_other (env : Env)
    (h : ∀ v, env.browser = some v →
      toLowerCase v ≠ "none" ∧ endsWith (toLowerCase v) ".js" = false) :
    (getBrowserEnv env).1 = Actions.BROWSER := by
  cases hv : env.browser with
  | none => simp [getBrowserEnv, hv]
  | some v =>
    obtain ⟨h1, h2⟩ := h v hv
    by_cases ht : truthyStr (some v) = true
    · simp [getBrowserEnv, hv, ht, h1, h2]
    · simp [getBrowserEnv, hv, ht]

theorem action_cases (env : Env) :
    (getBrowserEnv env).1 = Actions.NONE ∨ (getBrowserEnv env).1 = Actions.SCRIPT ∨
      (getBrowserEnv env).1 = Actions.BROWSER := by
  cases hv : env.browser with
  | none => simp [getBrowserEnv, hv]
  | some v =>
    by_cases hjs : endsWith (toLowerCase v) ".js" = true
    · exact Or.inr (Or.inl (action_of_js env v hv hjs))
    · by_cases hn : toLowerCase v = "none"
      · exact Or.inl (action_of_none env v hv hn)
      · refine Or.inr (Or.inr (action_of_other env ?_))
        intro w hw
        rw [hv] at hw
        cases hw
        exact ⟨hn, by simpa using hjs⟩

theorem openBrowser_eq (env : Env) (url : String) :
    openBrowser env url =
      if (getBrowserEnv env).1 = Actions.NONE then Except.ok (false, [])
      else if (getBrowserEnv env).1 = Actions.SCRIPT then
        Except.ok (executeNodeScript env env.browser url)
      else if (getBrowserEnv env).1 = Actions.BROWSER then
        Except.ok (startBrowserProcess env env.browser url)
      else Except.error "Not implemented." := rfl

theorem startBrowserProcess_eq (env : Env) (browser : Option String) (url : String) :
    startBrowserProcess env browser url =
      if env.platform = "darwin" ∧ (browser = none ∨ browser = some "google chrome") then
        if env.execOk "ps cax | grep \"Google Chrome\"" = true then
          if env.execOk
              ("osascript openChrome.applescript \"" ++ env.encodeURI url ++ "\"") = true then
            (true, [Effect.execSync "ps cax | grep \"Google Chrome\"",
              Effect.execSync
                ("osascript openChrome.applescript \"" ++ env.encodeURI url ++ "\"")])
          else
            (env.opnOk, [Effect.execSync "ps cax | grep \"Google Chrome\"",
              Effect.execSync
                ("osascript openChrome.applescript \"" ++ env.encodeURI url ++ "\""),
              Effect.opn url browser])
        else (env.opnOk, [Effect.execSync "ps cax | grep \"Google Chrome\"",
          Effect.opn url browser])
      else (env.opnOk, [Effect.opn url browser]) := by
  unfold startBrowserProcess
  by_cases hp : env.platform = "darwin"
  · cases browser with
    | none =>
      by_cases h1 : env.execOk "ps cax | grep \"Google Chrome\"" = true <;>
      by_cases h2 : env.execOk
          ("osascript openChrome.applescript \"" ++ env.encodeURI url ++ "\"") = true <;>
      by_cases h3 : env.opnOk = true <;>
      simp_all
    | some b =>
      by_cases hb : b = "google chrome" <;>
      by_cases h1 : env.execOk "ps cax | grep \"Google Chrome\"" = true <;>
      by_cases h2 : env.execOk
          ("osascript openChrome.applescript \"" ++ env.encodeURI url ++ "\"") = true <;>
      by_cases h3 : env.opnOk = true <;>
      simp_all [OSX_CHROME]
  · by_cases h3 : env.opnOk = true <;> simp_all

/-- C8: for every url and every value of `BROWSER`: when its lower case is `none`,
`openBrowser` returns `false` with no effect at all; when its lower case ends with `.js`,
it spawns `node` on that file (followed by the program's arguments and the url) and
returns `true`; for every other value, unset and empty included, it launches a browser as
`startBrowserProcess` does: on macOS with `BROWSER` unset or `google chrome`, the two
AppleScript commands, and `opn(url, { app: BROWSER })` when one of them fails; everywhere
else `opn(url, { app: BROWSER })` alone, the result being whether `opn` returned. The
`'Not implemented.'` exception is never thrown. -/
theorem openBrowser_spec (env : Env) (url : String) :
    (∀ v, env.browser = some v → toLowerCase v = "none" →
        openBrowser env url = Except.ok (false, [])) ∧
    (∀ v, env.browser = some v → endsWith (toLowerCase v) ".js" = true →
        openBrowser env url =
          Except.ok (true, [Effect.spawnNode ((v :: env.extraArgs) ++ [url]) "inherit"])) ∧
    ((∀ v, env.browser = some v →
        toLowerCase v ≠ "none" ∧ endsWith (toLowerCase v) ".js" = false) →
        openBrowser env url = Except.ok (startBrowserProcess env env.browser url) ∧
        openBrowser env url = Except.ok
          (if env.platform = "darwin" ∧
              (env.browser = none ∨ env.browser = some "google chrome") then
            if env.execOk "ps cax | grep \"Google Chrome\"" = true then
              if env.execOk
                  ("osascript openChrome.applescript \"" ++ env.encodeURI url ++ "\"") = true then
                (true, [Effect.execSync "ps cax | grep \"Google Chrome\"",
                  Effect.execSync
                    ("osascript openChrome.applescript \"" ++ env.encodeURI url ++ "\"")])
              else
                (env.opnOk, [Effect.execSync "ps cax | grep \"Google Chrome\"",
                  Effect.execSync
                    ("osascript openChrome.applescript \"" ++ env.encodeURI url ++ "\""),
                  Effect.opn url env.browser])
            else (env.opnOk, [Effect.execSync "ps cax | grep \"Google Chrome\"",
              Effect.opn url env.browser])
          else (env.opnOk, [Effect.opn url env.browser])) ∧
        (env.platform ≠ "darwin" →
          openBrowser env url = Except.ok (env.opnOk, [Effect.opn url env.browser])) ∧
        (∀ v, env.browser = some v → v ≠ "google chrome" →
          openBrowser env url = Except.ok (env.opnOk, [Effect.opn url env.browser]))) ∧
    (∀ e, openBrowser env url ≠ Except.error e) := by
  refine ⟨?_, ?_, ?_, ?_⟩
  · intro v hv h
    rw [openBrowser_eq, action_of_none env v hv h]
    rfl
  · intro v hv h
    rw [openBrowser_eq, action_of_js env v hv h, hv]
    rfl
  · intro h
    have e : openBrowser env url = Except.ok (startBrowserProcess env env.browser url) := by
      rw [openBrowser_eq, action_of_other env h]
      rfl
    refine ⟨e, ?_, ?_, ?_⟩
    · rw [e, startBrowserProcess_eq]
    · intro hp
      rw [e, startBrowserProcess_eq]
      simp [hp]
    · intro v hv hne
      rw [e, startBrowserProcess_eq]
      simp [hv, hne]
  · intro e
    rw [openBrowser_eq]
    rcases action_cases env with h | h | h <;> rw [h] <;> simp [Actions.NONE, Actions.SCRIPT,
      Actions.BROWSER]

/-- Witness of `openBrowser_spec`: `BROWSER=NoNe` opens nothing, `BROWSER=./open.JS` runs
the script with node, `BROWSER=firefox` on macOS goes to `opn` with that application, an
unset `BROWSER` on Linux goes to `opn` with no application, and an unset `BROWSER` on
macOS runs the two AppleScript commands. -/
theorem openBrowser_spec_witness :
    openBrowser ⟨some "NoNe", "linux", [], fun u => u, fun _ => true, true⟩
      "http://localhost:3000/" = Except.ok (false, []) ∧
    openBrowser ⟨some "./open.JS", "linux", ["--verbose"], fun u => u, fun _ => true, true⟩
      "http://localhost:3000/" =
        Except.ok (true,
          [Effect.spawnNode ["./open.JS", "--verbose", "http://localhost:3000/"] "inherit"]) ∧
    openBrowser ⟨some "firefox", "darwin", [], fun u => u, fun _ => true, true⟩
      "http://localhost:3000/" =
        Except.ok (true, [Effect.opn "http://localhost:3000/" (some "firefox")]) ∧
    openBrowser ⟨none, "linux", [], fun u => u, fun _ => true, true⟩
      "http://localhost:3000/" =
        Except.ok (true, [Effect.opn "http://localhost:3000/" none]) ∧
    openBrowser ⟨none, "darwin", [], fun u => u, fun _ => true, true⟩
      "http://localhost:3000/" =
        Except.ok (true, [Effect.execSync "ps cax | grep \"Google Chrome\"",
          Effect.execSync "osascript openChrome.applescript \"http://localhost:3000/\""]) :=
  ⟨(openBrowser_spec ⟨some "NoNe", "linux", [], fun u => u, fun _ => true, true⟩
      "http://localhost:3000/").1 "NoNe" rfl (by decide),
   (openBrowser_spec ⟨some "./open.JS", "linux", ["--verbose"], fun u => u, fun _ => true, true⟩
      "http://localhost:3000/").2.1 "./open.JS" rfl (by decide),
   ((openBrowser_spec ⟨some "firefox", "darwin", [], fun u => u, fun _ => true, true⟩
      "http://localhost:3000/").2.2.1
      (by intro v hv; cases hv; decide)).2.2.2 "firefox" rfl (by decide),
   ((openBrowser_spec ⟨none, "linux", [], fun u => u, fun _ => true, true⟩
      "http://localhost:3000/").2.2.1
      (by intro v hv; cases hv)).2.2.1 (by decide),
   ((openBrowser_spec ⟨none, "darwin", [], fun u => u, fun _ => true, true⟩
      "http://localhost:3000/").2.2.1
      (by intro v hv; cases hv)).2.1⟩

end Browser

/-! ## Properties of `utils/webpackDevServerUtils.js` -/

namespace DevServer

theorem getProcessForPort_call (env : Env) (port : Nat) :
    (getProcessForPort env).call port =
      Except.error "TypeError: getProcessForPort is not a function" := rfl

/-- The parts of the port choice that do not reach `getProcessForPort`: when the detector
finds `p`, `choosePort` resolves to `defaultPort` with no effect if `p` is `defaultPort`,
and resolves to `null` after printing one line, without a prompt, if `p` differs and the
terminal is not interactive; it never resolves to anything but `p` or `null`. -/
theorem choosePort_resolution (env : Env) (host : String) (defaultPort p : Nat)
    (hd : env.detect defaultPort host = Except.ok p) :
    (p = defaultPort →
      choosePort env host defaultPort = ⟨[], Except.ok (some defaultPort)⟩) ∧
    (p ≠ defaultPort → env.isInteractive = false →
      choosePort env host defaultPort =
        ⟨[Effect.log (env.paint Color.red (portMessage env defaultPort))], Except.ok none⟩) ∧
    (∀ r, (choosePort env host defaultPort).result = Except.ok r → r = none ∨ r = some p) := by
  refine ⟨?_, ?_, ?_⟩
  · intro hp
    simp [choosePort, hd, hp]
  · intro hp hi
    simp [choosePort, hd, hp, hi]
  · intro r h
    by_cases hp : p = defaultPort
    · simp [choosePort, hd, hp] at h
      exact Or.inr (by rw [← h, hp])
    · by_cases hi : env.isInteractive = true
      · simp [choosePort, hd, hp, hi, getProcessForPort_call] at h
      · simp [choosePort, hd, hp, hi] at h
        exact Or.inl h.symm

/-- C4 when the detector finds a port `p` other than `defaultPort` and the terminal is
interactive: `choosePort` clears the console, then the call of `getProcessForPort`, which
is bound to the exports object of its module, raises a `TypeError`; no question is asked
and the promise rejects instead of resolving to `p` or `null`. -/
theorem choosePort_interactive_rejects (env : Env) (host : String) (defaultPort p : Nat)
    (hd : env.detect defaultPort host = Except.ok p) (hp : p ≠ defaultPort)
    (hi : env.isInteractive = true) :
    choosePort env host defaultPort =
      ⟨[Effect.clearConsole], Except.error "TypeError: getProcessForPort is not a function"⟩ := by
  simp [choosePort, hd, hp, hi, getProcessForPort_call]

/-- Witness of `choosePort_interactive_rejects`: port 3000 is taken, 3001 is free, the
terminal is interactive and the user would answer yes. -/
theorem choosePort_interactive_rejects_witness :
    choosePort ⟨"linux", false, true, fun _ _ => Except.ok 3001, fun _ => none,
        fun _ => true, fun _ t => t, fun v => v⟩ "0.0.0.0" 3000 =
      ⟨[Effect.clearConsole], Except.error "TypeError: getProcessForPort is not a function"⟩ :=
  choosePort_interactive_rejects ⟨"linux", false, true, fun _ _ => Except.ok 3001,
      fun _ => none, fun _ => true, fun _ t => t, fun v => v⟩ "0.0.0.0" 3000 3001 rfl
    (by decide) rfl

theorem testHttp_iff (s : String) :
    testHttp s.data = true ↔ (startsWith s "http://" = true ∨ startsWith s "https://" = true) := by
  have e1 : ∀ t : String, startsWith s t = true ↔ t.data <+: s.data := by
    intro t
    simp [startsWith]
  rw [e1, e1]
  constructor
  · intro h
    unfold testHttp at h
    split at h
    · rename_i rest heq
      exact Or.inr ⟨rest, heq.symm⟩
    · rename_i rest heq
      exact Or.inl ⟨rest, heq.symm⟩
    · exact absurd h (by decide)
  · rintro (⟨t, ht⟩ | ⟨t, ht⟩)
    · rw [← ht]
      show testHttp ('h' :: 't' :: 't' :: 'p' :: ':' :: '/' :: '/' :: t) = true
      unfold testHttp
      split
      · rfl
      · rfl
      · rename_i h1 h2
        exact absurd rfl (h2 t)
    · rw [← ht]
      rfl

/-- C9: `prepareProxy` validates `proxy`. A falsy `proxy` gives `undefined`. A truthy
`proxy` that is neither an object nor a string ends the process with exit code 1. A
non-empty string that starts with neither `http://` nor `https://` ends the process with
exit code 1. A string that starts with `http://` or `https://` gives, off Windows, a list
of exactly one rule, whose `target` is that string. -/
theorem prepareProxy_validates (env : Env) (appPublicFolder : String) :
    (∀ proxy : Value, proxy.truthy = false →
      prepareProxy env proxy appPublicFolder = Except.ok none) ∧
    (∀ proxy : Value, proxy.truthy = true → proxy.typeof ≠ "object" →
      proxy.typeof ≠ "string" →
      ∃ logs, prepareProxy env proxy appPublicFolder = Except.error (Abort.exit logs 1)) ∧
    (∀ s : String, s ≠ "" → startsWith s "http://" = false → startsWith s "https://" = false →
      ∃ logs,
        prepareProxy env (Value.str s) appPublicFolder = Except.error (Abort.exit logs 1)) ∧
    (∀ s : String, (startsWith s "http://" = true ∨ startsWith s "https://" = true) →
      env.platform ≠ "win32" →
      ∃ rule : Rule,
        prepareProxy env (Value.str s) appPublicFolder = Except.ok (some [rule]) ∧
        rule.getProp "target" = some (RuleValue.json (Value.str s))) := by
  refine ⟨?_, ?_, ?_, ?_⟩
  · intro proxy h
    simp [prepareProxy, h]
  · intro proxy ht h1 h2
    refine ⟨[env.paint Color.red
        "When specified, \"proxy\" in package.json must be a string or an object.",
      env.paint Color.red ("Instead, the type of \"proxy\" was \"" ++ proxy.typeof ++ "\"."),
      env.paint Color.red "Either remove \"proxy\" from package.json, or make it an object"],
      ?_⟩
    simp [prepareProxy, ht, h1, h2]
  · intro s hne h1 h2
    have ht : (Value.str s).truthy = true := by simp [Value.truthy, hne]
    have hx : testHttp s.data = false := by
      cases hh : testHttp s.data with
      | false => rfl
      | true =>
        rcases (testHttp_iff s).1 hh with h | h
        · rw [h] at h1; cases h1
        · rw [h] at h2; cases h2
    refine ⟨[env.paint Color.red
      "When \"proxy\" is specified in package.json it must start with either http:// or https://"],
      ?_⟩
    simp [prepareProxy, ht, Value.typeof, hx]
  · intro s hs hw
    have hx : testHttp s.data = true := (testHttp_iff s).2 hs
    have hne : s ≠ "" := by
      rintro rfl
      exact absurd hx (by decide)
    have ht : (Value.str s).truthy = true := by simp [Value.truthy, hne]
    refine ⟨_, by simp only [prepareProxy, ht, Value.typeof, hx, hw]; simp; rfl, ?_⟩
    simp [Rule.getProp, List.lookup]

/-- Witness of `prepareProxy_validates`: `"proxy": "http://localhost:4000"` on Linux. -/
theorem prepareProxy_validates_witness :
    ∃ rule : Rule,
      prepareProxy ⟨"linux", false, true, fun _ _ => Except.ok 3000, fun _ => none,
          fun _ => true, fun _ t => t, fun v => v⟩ (Value.str "http://localhost:4000")
          "public" = Except.ok (some [rule]) ∧
      rule.getProp "target" = some (RuleValue.json (Value.str "http://localhost:4000")) :=
  (prepareProxy_validates ⟨"linux", false, true, fun _ _ => Except.ok 3000, fun _ => none,
      fun _ => true, fun _ t => t, fun v => v⟩ "public").2.2.2 "http://localhost:4000"
    (Or.inl (by decide)) (by decide)

/-- C10 at `"proxy": { "/api": null }`: the value of the key `/api` has no own `target`
property, yet `prepareProxy` does not reach `process.exit(1)`: reading
`hasOwnProperty` of `null` raises a `TypeError`. -/
theorem prepareProxy_null_context (env : Env) (appPublicFolder : String) :
    prepareProxy env (Value.obj [("/api", Value.null)]) appPublicFolder =
      Except.error (Abort.typeError "Cannot read property 'hasOwnProperty' of null") := by
  simp [prepareProxy, Value.truthy, Value.typeof, Value.keys, Value.ownProps, proxyRules,
    Value.getProp, List.lookup, Value.hasOwnProperty]

theorem proxyRules_all_ok (env : Env) (proxy : Value) (appPublicFolder : String)
    (keys : List String)
    (h : ∀ c ∈ keys, (proxy.getProp c).hasOwnProperty "target" = Except.ok true) :
    proxyRules env proxy appPublicFolder keys =
      Except.ok (keys.map (proxyRule env proxy appPublicFolder)) := by
  induction keys with
  | nil => rfl
  | cons c rest ih =>
    have hc := h c (List.mem_cons_self _ _)
    have hrest := ih (fun d hd => h d (List.mem_cons_of_mem _ hd))
    simp [proxyRules, hc, hrest]

theorem proxyRules_missing_target (env : Env) (proxy : Value) (appPublicFolder : String)
    (before after : List String) (c : String)
    (hb : ∀ d ∈ before, (proxy.getProp d).hasOwnProperty "target" = Except.ok true)
    (hc : (proxy.getProp c).hasOwnProperty "target" = Except.ok false) :
    proxyRules env proxy appPublicFolder (before ++ c :: after) =
      Except.error (Abort.exit [env.paint Color.red missingTargetMessage] 1) := by
  induction before with
  | nil => simp [proxyRules, hc]
  | cons d rest ih =>
    have hd := hb d (List.mem_cons_self _ _)
    have hrest := ih (fun e he => hb e (List.mem_cons_of_mem _ he))
    simp [proxyRules, hd, hrest]

theorem lookup_map_repl {β : Type} (o : List (String × β)) (k : String) (v : β)
    (h : o.any (fun kv => kv.1 == k) = true) :
    (o.map (fun kv => if kv.1 = k then (k, v) else kv)).lookup k = some v := by
  induction o with
  | nil => simp at h
  | cons a o ih =>
    by_cases ha : a.1 = k
    · rw [List.map_cons, if_pos ha, List.lookup_cons]
      simp
    · have hne : (k == a.1) = false := by simpa using fun h => ha h.symm
      have h2 : o.any (fun kv => kv.1 == k) = true := by simpa [ha] using h
      rw [List.map_cons, if_neg ha, List.lookup_cons, hne]
      exact ih h2

theorem lookup_append_new {β : Type} (o : List (String × β)) (k : String) (v : β)
    (h : o.any (fun kv => kv.1 == k) = false) :
    (o ++ [(k, v)]).lookup k = some v := by
  induction o with
  | nil => simp [List.lookup]
  | cons a o ih =>
    have ha : ¬ a.1 = k := by
      intro e
      simp [e] at h
    have hne : (k == a.1) = false := by simpa using fun h => ha h.symm
    have h2 : o.any (fun kv => kv.1 == k) = false := by
      simp only [List.any_cons, Bool.or_eq_false_iff] at h
      exact h.2
    rw [List.cons_append, List.lookup_cons, hne]
    exact ih h2

theorem lookup_map_repl_ne {β : Type} (o : List (String × β)) (k n : String) (v : β)
    (hn : n ≠ k) :
    (o.map (fun kv => if kv.1 = k then (k, v) else kv)).lookup n = o.lookup n := by
  induction o with
  | nil => rfl
  | cons a o ih =>
    by_cases ha : a.1 = k
    · have e1 : (n == k) = false := by simpa using hn
      have e2 : (n == a.1) = false := by rw [ha]; exact e1
      rw [List.map_cons, if_pos ha, List.lookup_cons, List.lookup_cons, e1, e2]
      exact ih
    · rw [List.map_cons, if_neg ha, List.lookup_cons, List.lookup_cons, ih]

theorem lookup_append_ne {β : Type} (o : List (String × β)) (k n : String) (v : β)
    (hn : n ≠ k) : (o ++ [(k, v)]).lookup n = o.lookup n := by
  induction o with
  | nil =>
    have e1 : (n == k) = false := by simpa using hn
    simp [List.lookup, e1]
  | cons a o ih =>
    rw [List.cons_append, List.lookup_cons, List.lookup_cons, ih]

theorem lookup_setProp_self (o : Rule) (k : String) (v : RuleValue) :
    (setProp o k v).lookup k = some v := by
  unfold setProp
  by_cases h : o.any (fun kv => kv.1 == k) = true
  · rw [if_pos h]
    exact lookup_map_repl o k v h
  · rw [if_neg h]
    exact lookup_append_new o k v (Bool.eq_false_iff.2 h)

theorem lookup_setProp_ne (o : Rule) (k n : String) (v : RuleValue) (hn : n ≠ k) :
    (setProp o k v).lookup n = o.lookup n := by
  unfold setProp
  by_cases h : o.any (fun kv => kv.1 == k) = true
  · rw [if_pos h]
    exact lookup_map_repl_ne o k n v hn
  · rw [if_neg h]
    exact lookup_append_ne o k n v hn

theorem assign_append (o : Rule) (xs ys : List (String × RuleValue)) :
    assign o (xs ++ ys) = assign (assign o xs) ys := by
  simp [assign, List.foldl_append]

theorem lookup_assign_of_not_mem (o : Rule) (src : List (String × RuleValue)) (n : String)
    (h : n ∉ src.map Prod.fst) : (assign o src).lookup n = o.lookup n := by
  induction src generalizing o with
  | nil => rfl
  | cons a src ih =>
    have h1 : n ≠ a.1 := fun e => h (by simp [e])
    have h2 : n ∉ src.map Prod.fst := fun e => h (by simp [e])
    show (assign (setProp o a.1 a.2) src).lookup n = o.lookup n
    rw [ih (setProp o a.1 a.2) h2, lookup_setProp_ne o a.1 n a.2 h1]

theorem lookup_assign_of_mem (o : Rule) (src : List (String × RuleValue)) (n : String)
    (v : RuleValue) (hmem : (n, v) ∈ src) (hnd : (src.map Prod.fst).Nodup) :
    (assign o src).lookup n = some v := by
  obtain ⟨before, after, rfl⟩ := List.append_of_mem hmem
  have hn : n ∉ after.map Prod.fst := by
    rw [List.map_append, List.map_cons, List.nodup_append] at hnd
    exact (List.nodup_cons.1 hnd.2.1).1
  rw [assign_append]
  show (assign (setProp (assign o before) n v) after).lookup n = some v
  rw [lookup_assign_of_not_mem _ after n hn, lookup_setProp_self]

theorem proxyRule_eq (env : Env) (proxy : Value) (appPublicFolder context : String) :
    proxyRule env proxy appPublicFolder context =
      setProp (setProp (setProp (setProp
        (assign [] ((proxy.getProp context).ownProps.map (fun kv => (kv.1, RuleValue.json kv.2))))
        "context" (RuleValue.contextOfKey appPublicFolder context))
        "onProxyReq" (RuleValue.onProxyReq (proxyTarget env (proxy.getProp context))))
        "target" (RuleValue.json (proxyTarget env (proxy.getProp context))))
        "onError" (RuleValue.onError (proxyTarget env (proxy.getProp context))) := rfl

/-- The rule built for a key: the four generated properties replace whatever the
configured value had under those names, the rule's `target` is the configured one off
Windows, and every other option of the configured value is kept. -/
theorem proxyRule_props (env : Env) (proxy : Value) (appPublicFolder context : String) :
    (proxyRule env proxy appPublicFolder context).getProp "context" =
      some (RuleValue.contextOfKey appPublicFolder context) ∧
    (proxyRule env proxy appPublicFolder context).getProp "onProxyReq" =
      some (RuleValue.onProxyReq (proxyTarget env (proxy.getProp context))) ∧
    (proxyRule env proxy appPublicFolder context).getProp "target" =
      some (RuleValue.json (proxyTarget env (proxy.getProp context))) ∧
    (proxyRule env proxy appPublicFolder context).getProp "onError" =
      some (RuleValue.onError (proxyTarget env (proxy.getProp context))) ∧
    (env.platform ≠ "win32" →
      proxyTarget env (proxy.getProp context) = (proxy.getProp context).getProp "target") ∧
    (∀ n v, n ≠ "context" → n ≠ "onProxyReq" → n ≠ "target" → n ≠ "onError" →
      (n, v) ∈ (proxy.getProp context).ownProps →
      ((proxy.getProp context).ownProps.map Prod.fst).Nodup →
      (proxyRule env proxy appPublicFolder context).getProp n = some (RuleValue.json v)) := by
  rw [proxyRule_eq]
  unfold Rule.getProp
  refine ⟨?_, ?_, ?_, ?_, ?_, ?_⟩
  · rw [lookup_setProp_ne _ _ _ _ (by decide), lookup_setProp_ne _ _ _ _ (by decide),
      lookup_setProp_ne _ _ _ _ (by decide), lookup_setProp_self]
  · rw [lookup_setProp_ne _ _ _ _ (by decide), lookup_setProp_ne _ _ _ _ (by decide),
      lookup_setProp_self]
  · rw [lookup_setProp_ne _ _ _ _ (by decide), lookup_setProp_self]
  · rw [lookup_setProp_self]
  · intro hw
    simp [proxyTarget, hw]
  · intro n v h1 h2 h3 h4 hmem hnd
    rw [lookup_setProp_ne _ _ _ _ h4, lookup_setProp_ne _ _ _ _ h3,
      lookup_setProp_ne _ _ _ _ h2, lookup_setProp_ne _ _ _ _ h1]
    apply lookup_assign_of_mem
    · exact List.mem_map.2 ⟨(n, v), hmem, rfl⟩
    · simpa [List.map_map, Function.comp] using hnd

/-- The object branch of `prepareProxy` when every key's value reports an own `target`:
one rule per key, in key order. -/
theorem prepareProxy_object_ok (env : Env) (props : List (String × Value))
    (appPublicFolder : String)
    (h : ∀ c ∈ (Value.obj props).keys,
      ((Value.obj props).getProp c).hasOwnProperty "target" = Except.ok true) :
    prepareProxy env (Value.obj props) appPublicFolder =
      Except.ok (some ((Value.obj props).keys.map
        (proxyRule env (Value.obj props) appPublicFolder))) := by
  simp [prepareProxy, Value.truthy, Value.typeof,
    proxyRules_all_ok env (Value.obj props) appPublicFolder _ h]

/-- The object branch of `prepareProxy` when the first key whose value does not report an
own `target` reports that it has none: the process ends with exit code 1. -/
theorem prepareProxy_object_exit (env : Env) (props : List (String × Value))
    (appPublicFolder : String) (before after : List String) (c : String)
    (hk : (Value.obj props).keys = before ++ c :: after)
    (hb : ∀ d ∈ before, ((Value.obj props).getProp d).hasOwnProperty "target" = Except.ok true)
    (hc : ((Value.obj props).getProp c).hasOwnProperty "target" = Except.ok false) :
    prepareProxy env (Value.obj props) appPublicFolder =
      Except.error (Abort.exit [env.paint Color.red missingTargetMessage] 1) := by
  simp [prepareProxy, Value.truthy, Value.typeof, hk,
    proxyRules_missing_target env (Value.obj props) appPublicFolder before after c hb hc]

end DevServer

/-! ## Properties of `utils/interpolateHtmlPlugin.js` -/

namespace Interpolate

theorem literalOfPattern_plain (c : Char) (rest : List Char) (hc : isOperator c = false) :
    literalOfPattern (c :: rest) = (literalOfPattern rest).map (fun l => c :: l) := by
  have hne : c ≠ '\\' := by
    rintro rfl
    exact absurd hc (by decide)
  cases rest with
  | nil => simp [literalOfPattern, hc]
  | cons d rest => simp [literalOfPattern, hc, hne]

theorem literalOfPattern_escaped (c : Char) (rest : List Char) (hc : isOperator c = true) :
    literalOfPattern ('\\' :: c :: rest) = (literalOfPattern rest).map (fun l => c :: l) := by
  simp [literalOfPattern, hc]

theorem literalOfPattern_escape (key tail : List Char) :
    literalOfPattern (escapeStringRegexp key ++ tail) =
      (literalOfPattern tail).map (fun l => key ++ l) := by
  induction key with
  | nil => simp [escapeStringRegexp]
  | cons c rest ih =>
    by_cases hc : isOperator c = true
    · simp only [escapeStringRegexp, hc, if_true, List.cons_append]
      rw [literalOfPattern_escaped c _ hc, ih]
      cases literalOfPattern tail <;> simp
    · have hf : isOperator c = false := by simpa using hc
      simp only [escapeStringRegexp, hf, Bool.false_eq_true, if_false, List.cons_append]
      rw [literalOfPattern_plain c _ hf, ih]
      cases literalOfPattern tail <;> simp

/-- The expression built for a key matches exactly the text `'%' + key + '%'`: no
character of the key keeps a special meaning. -/
theorem pattern_literal (key : List Char) :
    literalOfPattern ('%' :: (escapeStringRegexp key ++ ['%'])) =
      some ('%' :: (key ++ ['%'])) := by
  rw [literalOfPattern_plain '%' _ (by decide), literalOfPattern_escape]
  rfl

theorem interpolateKey_eq (html key value : List Char) :
    interpolateKey html key value = some (replaceAll '%' (key ++ ['%']) value html) := by
  simp [interpolateKey, pattern_literal]

theorem getSubstitution_of_no_dollar (matched before after value : List Char)
    (h : '$' ∉ value) : getSubstitution matched before after value = value := by
  induction value with
  | nil => rfl
  | cons c rest ih =>
    have hc : c ≠ '$' := fun e => h (by simp [e])
    have hrest : '$' ∉ rest := fun e => h (List.mem_cons_of_mem _ e)
    cases rest with
    | nil => rfl
    | cons d rest =>
      rw [getSubstitution, if_neg hc, ih hrest]

theorem replaceGo_of_no_dollar (p : Char) (ps value : List Char) (h : '$' ∉ value)
    (before : List Char) (skip : Nat) (html : List Char) :
    replaceGo p ps value before skip html = substituteGo p ps value skip html := by
  induction html generalizing before skip with
  | nil => cases skip <;> rfl
  | cons c cs ih =>
    cases skip with
    | succ k =>
      rw [replaceGo, substituteGo]
      exact ih _ _
    | zero =>
      rw [replaceGo, substituteGo, ih, ih, getSubstitution_of_no_dollar _ _ _ _ h]

theorem interpolateKeys_total (replacements : List (String × String)) (keys : List String)
    (html : List Char) : ∃ out, interpolateKeys replacements keys html = some out := by
  induction keys generalizing html with
  | nil => exact ⟨html, rfl⟩
  | cons key rest ih =>
    rw [interpolateKeys, interpolateKey_eq]
    exact ih _

theorem interpolateKeys_of_no_dollar (replacements : List (String × String))
    (keys : List String) (html : List Char)
    (h : ∀ key ∈ keys, '$' ∉ (valueOf replacements key).data) :
    interpolateKeys replacements keys html =
      some (interpolateSpec replacements keys html) := by
  induction keys generalizing html with
  | nil => rfl
  | cons key rest ih =>
    have hk := h key (List.mem_cons_self _ _)
    have hrest := fun k hk => h k (List.mem_cons_of_mem _ hk)
    rw [interpolateKeys, interpolateKey_eq, interpolateSpec]
    simp only [replaceAll, substituteAll, replaceGo_of_no_dollar _ _ _ hk]
    exact ih _ hrest

theorem valueOf_mem (replacements : List (String × String)) (key : String)
    (h : key ∈ replacements.map Prod.fst) :
    (key, valueOf replacements key) ∈ replacements := by
  induction replacements with
  | nil => simp at h
  | cons kv rest ih =>
    obtain ⟨k, v⟩ := kv
    by_cases hk : key = k
    · subst hk
      simp [valueOf, List.lookup, toStr]
    · have hb : (key == k) = false := by simpa using hk
      have h2 : key ∈ rest.map Prod.fst := by
        rcases List.mem_cons.1 h with h1 | h1
        · exact absurd h1 hk
        · exact h1
      have := ih h2
      simp only [valueOf, List.lookup_cons, hb] at this ⊢
      exact List.mem_cons_of_mem _ this

/-- The hook always produces a new `data.html`. -/
theorem hook_total (replacements : List (String × String)) (html : String) :
    ∃ out, hook replacements html = some out := by
  obtain ⟨out, hout⟩ := interpolateKeys_total replacements (replacements.map Prod.fst) html.data
  exact ⟨String.mk out, by simp [hook, hout]⟩

/-- When no value contains a `$`, the hook does what the claim says: for each key in turn,
every occurrence of `'%' + key + '%'` is replaced by that key's value. -/
theorem hook_of_no_dollar (replacements : List (String × String)) (html : String)
    (h : ∀ kv ∈ replacements, '$' ∉ kv.2.data) :
    hook replacements html =
      some (String.mk (interpolateSpec replacements (replacements.map Prod.fst) html.data)) := by
  have hv : ∀ key ∈ replacements.map Prod.fst, '$' ∉ (valueOf replacements key).data :=
    fun key hk => h _ (valueOf_mem replacements key hk)
  simp [hook, interpolateKeys_of_no_dollar replacements _ html.data hv]

/-- C11 at `replacements = { REACT_APP_PRICE: '$$5' }` and
`html = '<p>%REACT_APP_PRICE%</p>'`: the hook leaves `<p>$5</p>`, where replacing the
occurrence by the key's value gives `<p>$$5</p>`. -/
theorem hook_dollar_value :
    hook [("REACT_APP_PRICE", "$$5")] "<p>%REACT_APP_PRICE%</p>" = some "<p>$5</p>" ∧
    String.mk (interpolateSpec [("REACT_APP_PRICE", "$$5")] ["REACT_APP_PRICE"]
      "<p>%REACT_APP_PRICE%</p>".data) = "<p>$$5</p>" := by
  constructor <;> decide

end Interpolate

end Uwebpack
